import Mathlib

/-!
Shallow embedding of the storage-and-concurrency core of the cmudb storage
engine (buffer pool manager, B+tree pages, index iterator, lock manager,
log manager, transaction manager), translated from the C++ sources, together
with theorems settling the specification claims.

Conventions of the embedding:
* machine integers become `Int` (page ids, LSNs; INVALID_PAGE_ID = -1,
  INVALID_LSN = -1) or `Nat` (sizes, counts, timestamps); no overflow is
  relevant on the inputs considered;
* `std::unordered_map` becomes an association list with lookup/update/erase
  helpers;
* C++ `assert` becomes a dedicated error outcome (an aborted process path);
* a thrown C++ exception becomes `Except.error`;
* I/O side effects (disk reads/writes, promise waits, cv notifications) are
  recorded in an explicit, ordered action trace so that temporal ordering
  claims can be stated;
* each mutex-protected critical section becomes one atomic step function; a
  concurrent execution is an interleaving of such steps.
-/

namespace Cmudb

/-! ### Association list helpers (model of std::unordered_map) -/

/-- Lookup in an association list (`map.find(k)`). -/
def alookup {α β : Type} [DecidableEq α] : List (α × β) → α → Option β
  | [], _ => none
  | (a, b) :: t, k => if a = k then some b else alookup t k

/-- Insert-or-overwrite (`map[k] = v`). -/
def aupsert {α β : Type} [DecidableEq α] : List (α × β) → α → β → List (α × β)
  | [], k, v => [(k, v)]
  | (a, b) :: t, k, v => if a = k then (k, v) :: t else (a, b) :: aupsert t k v

/-- Erase a key (`map.erase(k)`). -/
def aerase {α β : Type} [DecidableEq α] : List (α × β) → α → List (α × β)
  | [], _ => []
  | (a, b) :: t, k => if a = k then t else (a, b) :: aerase t k

/-! ### Lock manager (src/concurrency/lock_manager.cpp)

RIDs are modelled as `Nat` (the C++ RID is a pair compared bitwise; only
equality matters to the lock manager).  Timestamps are `Nat`
(`get_timestamp()` returns nanoseconds since the epoch).  The per-call value
of `get_timestamp()` is passed in as the parameter `now`. -/

inductive LockType where
  | shared
  | exclusive
  deriving DecidableEq, Repr

inductive TxnState where
  | growing
  | shrinking
  | committed
  | aborted
  deriving DecidableEq, Repr

/-- State of the lock manager together with the transaction objects it
mutates.  `lm` is the per-RID queue of (mode, txn id); `lt` records each
transaction's wait-die timestamp; `sharedSets`/`exclusiveSets` are the
per-transaction lock sets stored on the Transaction objects. -/
structure LMgr where
  lm : List (Nat × List (LockType × Nat))
  lt : List (Nat × Nat)
  txnStates : List (Nat × TxnState)
  sharedSets : List (Nat × List Nat)
  exclusiveSets : List (Nat × List Nat)
  strict2PL : Bool
  deriving DecidableEq, Repr

/-- State of a transaction object (`txn->GetState()`); transactions are
created GROWING. -/
def txnStateOf (s : LMgr) (tid : Nat) : TxnState :=
  (alookup s.txnStates tid).getD TxnState.growing

/-- `txn->SetState(st)`. -/
def setTxnState (s : LMgr) (tid : Nat) (st : TxnState) : LMgr :=
  { s with txnStates := aupsert s.txnStates tid st }

/-- The die path of wait-die: `txn->SetState(TransactionState::ABORTED)`. -/
def abortTxn (s : LMgr) (tid : Nat) : LMgr :=
  setTxnState s tid TxnState.aborted

/-- The requester's timestamp used inside the wait predicates:
`lt.find(txn_id) != lt.end() ? lt[txn_id] : get_timestamp()`. -/
def reqTs (s : LMgr) (tid now : Nat) : Nat :=
  (alookup s.lt tid).getD now

/-- A holder's recorded timestamp `lt[txn_id1]` (the source asserts the
entry exists; out of that domain the model reads 0). -/
def holderTs (s : LMgr) (hid : Nat) : Nat :=
  (alookup s.lt hid).getD 0

/-- Record the requester's timestamp on first acquisition
(`if (lt.find(id) == lt.end()) lt[id] = get_timestamp()`). -/
def recordTs (s : LMgr) (tid now : Nat) : LMgr :=
  if (alookup s.lt tid).isSome then s
  else { s with lt := aupsert s.lt tid now }

/-- Outcome of one evaluation of a lock call's decision under the mutex:
`granted s'` returns true with updated state, `died s'` returns false with
the requester aborted, `blocked` enters the condition-variable wait, and
`assertFail` is a failed C++ `assert` (process abort). -/
inductive LockOutcome where
  | granted (s : LMgr)
  | died (s : LMgr)
  | blocked
  | assertFail
  deriving DecidableEq, Repr

/-- Append a shared entry for `tid` on `rid`, record the timestamp if first,
and add `rid` to the txn's shared lock set (lines 47-53 and 114-117 of
lock_manager.cpp; both grant paths perform the same updates). -/
def grantShared (s : LMgr) (tid rid now : Nat) : LMgr :=
  let vec := (alookup s.lm rid).getD []
  let s1 := { s with lm := aupsert s.lm rid (vec ++ [(LockType.shared, tid)]) }
  let s2 := recordTs s1 tid now
  { s2 with sharedSets :=
      aupsert s2.sharedSets tid (((alookup s2.sharedSets tid).getD []) ++ [rid]) }

/-- Append an exclusive entry for `tid` on `rid`, record the timestamp if
first, and add `rid` to the txn's exclusive lock set. -/
def grantExclusive (s : LMgr) (tid rid now : Nat) : LMgr :=
  let vec := (alookup s.lm rid).getD []
  let s1 := { s with lm := aupsert s.lm rid (vec ++ [(LockType.exclusive, tid)]) }
  let s2 := recordTs s1 tid now
  { s2 with exclusiveSets :=
      aupsert s2.exclusiveSets tid (((alookup s2.exclusiveSets tid).getD []) ++ [rid]) }

/-- `LockManager::LockShared`, one evaluation of its decision (the initial
one, or a re-evaluation after a wake; the code consults the live queue each
time).  Mirrors lock_manager.cpp lines 36-122. -/
def lockShared (s : LMgr) (tid rid now : Nat) : LockOutcome :=
  if txnStateOf s tid ≠ TxnState.growing then LockOutcome.assertFail
  else
    match alookup s.lm rid with
    | none => LockOutcome.granted (grantShared s tid rid now)
    | some vec =>
      -- predicate of lc[rid].wait: `cond_wait` holds only if the queue is
      -- exactly one exclusive holder (`vec.size() == 1 && vec[0] exclusive`);
      -- without `cond_wait` the predicate returns true and the lock is taken
      match vec with
      | [(LockType.exclusive, hid)] =>
        if reqTs s tid now > holderTs s hid then LockOutcome.died (abortTxn s tid)
        else LockOutcome.blocked
      | _ => LockOutcome.granted (grantShared s tid rid now)

/-- `LockManager::LockExclusive`, one evaluation of its decision.  Mirrors
lock_manager.cpp lines 124-206: with the rid absent the lock is installed;
otherwise the requester dies if `std::find_if` finds a holder whose recorded
timestamp is older (smaller) than the requester's, else it waits. -/
def lockExclusive (s : LMgr) (tid rid now : Nat) : LockOutcome :=
  if txnStateOf s tid ≠ TxnState.growing then LockOutcome.assertFail
  else
    match alookup s.lm rid with
    | none => LockOutcome.granted (grantExclusive s tid rid now)
    | some vec =>
      if vec.length = 0 then LockOutcome.assertFail
      else
        if vec.any (fun e => reqTs s tid now > holderTs s e.2) then
          LockOutcome.died (abortTxn s tid)
        else LockOutcome.blocked

/-- The success condition of `LockUpgrade`'s wait predicate
(`vec.size() == 1 && vec[0] shared && vec[0] owned by txn`): the queue is
exactly the requester's own shared entry. -/
def upgradeImmediate (vec : List (LockType × Nat)) (tid : Nat) : Prop :=
  vec = [(LockType.shared, tid)]

instance (vec : List (LockType × Nat)) (tid : Nat) :
    Decidable (upgradeImmediate vec tid) := by
  unfold upgradeImmediate
  infer_instance

/-- `LockManager::LockUpgrade`, one evaluation of its decision.  Mirrors
lock_manager.cpp lines 208-284: asserts GROWING, the rid present, and a
shared entry of the requester in the queue; succeeds when the queue is
exactly that entry (replacing it by an exclusive one), dies when an older
holder remains, otherwise waits. -/
def lockUpgrade (s : LMgr) (tid rid : Nat) : LockOutcome :=
  if txnStateOf s tid ≠ TxnState.growing then LockOutcome.assertFail
  else
    match alookup s.lm rid with
    | none => LockOutcome.assertFail
    | some vec =>
      if ¬ vec.any (fun e => e.1 = LockType.shared ∧ e.2 = tid) then
        LockOutcome.assertFail
      else
        if upgradeImmediate vec tid then
          -- pop the shared entry, push the exclusive entry, move rid from
          -- the shared set to the exclusive set
          let shared' := ((alookup s.sharedSets tid).getD []).filter (· ≠ rid)
          let excl' := ((alookup s.exclusiveSets tid).getD []) ++ [rid]
          let s1 := { s with
            sharedSets := aupsert s.sharedSets tid shared',
            lm := aupsert s.lm rid [(LockType.exclusive, tid)] }
          LockOutcome.granted
            { s1 with exclusiveSets := aupsert s1.exclusiveSets tid excl' }
        else
          match alookup s.lt tid with
          | none => LockOutcome.assertFail
          | some ts =>
            if vec.any (fun e => ts > holderTs s e.2) then
              LockOutcome.died (abortTxn s tid)
            else LockOutcome.blocked

/-- Observable actions of `Unlock` (the condition-variable broadcast). -/
inductive LockAction where
  | notifyAll (rid : Nat)
  deriving DecidableEq, Repr

/-- Remove the first queue entry belonging to `tid` (the erase loop of
Unlock, which breaks after the first match). -/
def removeFirstEntry : List (LockType × Nat) → Nat → List (LockType × Nat)
  | [], _ => []
  | e :: t, tid => if e.2 = tid then t else e :: removeFirstEntry t tid

/-- The queue update of `Unlock` (lock_manager.cpp lines 309-332): erase
the transaction's first entry from the rid's queue, dropping the rid's key
when the queue becomes empty. -/
def unlockQueueUpdate (lmm : List (Nat × List (LockType × Nat)))
    (tid rid : Nat) : List (Nat × List (LockType × Nat)) :=
  let vec' := removeFirstEntry ((alookup lmm rid).getD []) tid
  if vec'.isEmpty then aerase lmm rid else aupsert lmm rid vec'

/-- The state mutation of `Unlock` before its return-value decision
(lock_manager.cpp lines 288-335): the GROWING → SHRINKING transition on
first unlock, removal of the rid from both of the transaction's lock sets,
discarding the timestamp when no lock remains, and the queue update. -/
def unlockCore (s : LMgr) (tid rid : Nat) : LMgr :=
  let s1 := if txnStateOf s tid = TxnState.growing
            then setTxnState s tid TxnState.shrinking else s
  let shared' := ((alookup s1.sharedSets tid).getD []).filter (· ≠ rid)
  let excl' := ((alookup s1.exclusiveSets tid).getD []).filter (· ≠ rid)
  let s2 := { s1 with sharedSets := aupsert s1.sharedSets tid shared',
                      exclusiveSets := aupsert s1.exclusiveSets tid excl' }
  let s3 := if shared'.isEmpty ∧ excl'.isEmpty
            then { s2 with lt := aerase s2.lt tid } else s2
  { s3 with lm := unlockQueueUpdate s3.lm tid rid }

/-- `LockManager::Unlock` (lock_manager.cpp lines 286-350).  Returns the
boolean result, the updated state, and the emitted actions.  The strict-2PL
check runs LAST: by then the queue entry is already removed and the waiters
already notified via `lc[rid].notify_all()`. -/
def unlock (s : LMgr) (tid rid : Nat) : Bool × LMgr × List LockAction :=
  let s4 := unlockCore s tid rid
  if s4.strict2PL ∧ txnStateOf s4 tid ≠ TxnState.committed ∧
      txnStateOf s4 tid ≠ TxnState.aborted then
    (false, abortTxn s4 tid, [LockAction.notifyAll rid])
  else
    (true, s4, [LockAction.notifyAll rid])

/-! ### B+tree leaf page (src/page/b_plus_tree_leaf_page.cpp)

Keys are modelled as `Int` (the generic comparator is a total order), leaf
values (RIDs) as `Nat`.  `sizeof(MappingType)` is the byte width of one
(key, RID) pair; its concrete value scales every byte count uniformly and
never changes a comparison, we fix the GenericKey<8> instantiation. -/

def mappingSize : Nat := 16

/-- Errors that escape the page methods: a failed `assert`, or the
`std::invalid_argument("received a duplicate key")` thrown by
`BPlusTreeLeafPage::Insert`. -/
inductive LeafError where
  | assertFail
  | duplicateKey
  deriving DecidableEq, Repr

structure LeafPage where
  entries : List (Int × Nat)
  maxSize : Nat
  nextPageId : Int
  deriving DecidableEq, Repr

/-- The binary-search loop of `BPlusTreeLeafPage::Insert` (lines 113-142):
narrows `[low, high]`, throws on an equal key, and otherwise ends with `low`
as the insertion index.  The loop shrinks `high - low` every iteration, so
`entries.length + 2` steps of fuel always suffice; out of fuel the model
returns the current `low` (never reached with that fuel). -/
def leafFindAux (entries : List (Int × Nat)) (key : Int) :
    Nat → Int → Int → Except Unit Int
  | 0, low, _ => Except.ok low
  | fuel + 1, low, high =>
    if low ≤ high then
      let mid := low + (high - low) / 2
      let k1 := ((entries.getD mid.toNat (0, 0))).1
      if key < k1 then leafFindAux entries key fuel low (mid - 1)
      else if k1 < key then leafFindAux entries key fuel (mid + 1) high
      else Except.error ()
    else Except.ok low

/-- `BPlusTreeLeafPage::Insert` (lines 106-159): asserts
`GetSize() < GetMaxSize()`, binary-searches (throwing on a duplicate key),
shifts `[low, size)` up by one, writes the pair at `low`, and returns
`(GetMaxSize() - GetSize()) * sizeof(MappingType)` — 0 signals the caller to
split. -/
def leafInsert (leaf : LeafPage) (key : Int) (value : Nat) :
    Except LeafError (LeafPage × Nat) :=
  if leaf.entries.length < leaf.maxSize then
    match leafFindAux leaf.entries key (leaf.entries.length + 2) 0
        ((leaf.entries.length : Int) - 1) with
    | Except.error () => Except.error LeafError.duplicateKey
    | Except.ok low =>
      let entries' := leaf.entries.take low.toNat ++ [(key, value)] ++
        leaf.entries.drop low.toNat
      Except.ok ({ leaf with entries := entries' },
        (leaf.maxSize - entries'.length) * mappingSize)
  else Except.error LeafError.assertFail

/-- `BPlusTreeLeafPage::MoveHalfTo` + `CopyHalfFrom` (lines 167-198):
`mid = GetSize() / 2`; the recipient receives `[mid, size)` and this page
keeps `[0, mid)`. -/
def moveHalfTo (entries : List (Int × Nat)) :
    List (Int × Nat) × List (Int × Nat) :=
  let mid := entries.length / 2
  (entries.take mid, entries.drop mid)

/-- The leaf-level behaviour of `BPlusTree::InsertIntoLeaf`
(b_plus_tree.cpp lines 249-272) once the target leaf has been reached: call
the leaf's `Insert`; when it returns 0, split via `Split`/`MoveHalfTo` and
link the sibling; on success the function returns true — it has no
false-returning path, and the duplicate-key exception from the leaf
propagates out unhandled. -/
def insertIntoLeaf (leaf : LeafPage) (key : Int) (value : Nat) :
    Except LeafError (Bool × List LeafPage) :=
  match leafInsert leaf key value with
  | Except.error e => Except.error e
  | Except.ok (leaf', ret) =>
    if ret = 0 then
      let halves := moveHalfTo leaf'.entries
      Except.ok (true,
        [{ leaf' with entries := halves.1 },
         { leaf' with entries := halves.2 }])
    else Except.ok (true, [leaf'])

/-! ### B+tree internal page removal (src/page/b_plus_tree_internal_page.cpp)

Internal entries are (key, child page id) pairs, both `Int`. -/

/-- `BPlusTreeInternalPage::Remove` (lines 247-257), modelled byte-for-byte:
`sz = (GetSize() - (index+1)) * sizeof(MappingType)`; when `sz` is nonzero
the code runs `memmove(&array[index+1], &array[index], sz)` — destination
above source — so positions `index+1 .. size-1` receive the old positions
`index .. size-2`; then the size is decremented. -/
def internalRemove (entries : List (Int × Int)) (index : Nat) :
    List (Int × Int) :=
  let n := entries.length
  let moved := entries.take (index + 1) ++ (entries.drop index).take (n - 1 - index)
  moved.take (n - 1)

/-! ### Index iterator (src/index/index_iterator.cpp, index_iterator.h)

The leaf linked list is modelled as a map from page id to (entries, next
page id); the iterator holds the current pinned page id (`none` models the
null iterator of an empty tree) and the slot index. -/

structure IterLeafPage where
  entries : List (Int × Nat)
  nextPageId : Int
  deriving DecidableEq, Repr

structure IterState where
  cur : Option Int
  idx : Nat
  deriving DecidableEq, Repr

def emptyIterLeaf : IterLeafPage := ⟨[], -1⟩

/-- `IndexIterator::isEnd` (index_iterator.cpp lines 30-38): true for the
null iterator, and true when there is no next leaf and the index equals
`GetSize() - 1` — the last slot. -/
def iterIsEnd (pages : List (Int × IterLeafPage)) (it : IterState) : Bool :=
  match it.cur with
  | none => true
  | some pid =>
    let leaf := (alookup pages pid).getD emptyIterLeaf
    decide (leaf.nextPageId = -1 ∧
      (it.idx : Int) = (leaf.entries.length : Int) - 1)

/-- `IndexIterator::operator++` (index_iterator.h lines 27-42): increment
the index; at end of leaf, when a next leaf exists, fetch it and restart at
slot 0. -/
def iterInc (pages : List (Int × IterLeafPage)) (it : IterState) : IterState :=
  match it.cur with
  | none => it
  | some pid =>
    let leaf := (alookup pages pid).getD emptyIterLeaf
    let idx' := it.idx + 1
    if leaf.entries.length ≤ idx' ∧ leaf.nextPageId ≠ -1 then
      ⟨some leaf.nextPageId, 0⟩
    else ⟨some pid, idx'⟩

/-- `IndexIterator::operator*`: the entry at the current slot. -/
def iterStar (pages : List (Int × IterLeafPage)) (it : IterState) : Int × Nat :=
  (((alookup pages it.cur.iget).getD emptyIterLeaf).entries.getD it.idx (0, 0))

/-- The scan protocol used by every B+tree test
(`for (it = Begin(); it.isEnd() == false; ++it) use(*it)`): the sequence of
entries the loop visits. -/
def iterRun (pages : List (Int × IterLeafPage)) :
    Nat → IterState → List (Int × Nat)
  | 0, _ => []
  | fuel + 1, it =>
    if iterIsEnd pages it then []
    else iterStar pages it :: iterRun pages fuel (iterInc pages it)

/-! ### Buffer pool manager (src/buffer/buffer_pool_manager.cpp)

Frames are indices into `frames`; the LRU replacer is abstracted to its
interface (a queue of unpinned frames whose `Victim` yields the front and
whose `Erase` removes an entry).  Disk and log interactions are recorded in
an ordered action trace. -/

structure BPPage where
  pageId : Int
  pinCount : Int
  dirty : Bool
  lsn : Int
  deriving DecidableEq, Repr

/-- A freshly constructed / `Reset()` page. -/
def resetPage : BPPage := ⟨-1, 0, false, 0⟩

inductive BPAction where
  | diskWrite (pid : Int)
  | waitLogFlush (pid : Int)
  | diskRead (pid : Int)
  | allocatePage (pid : Int)
  | deallocatePage (pid : Int)
  deriving DecidableEq, Repr

structure BPState where
  frames : List BPPage
  pageTable : List (Int × Nat)
  freeList : List Nat
  replacer : List Nat
  dirtyPages : List Int
  persistentLsn : Int
  enableLogging : Bool
  nextAllocPid : Int
  deriving DecidableEq, Repr

/-- Common tail of FetchPage's miss path (lines 125-134): read the page from
disk, set its id, pin it, and insert it into the page table. -/
def fetchCommon (s : BPState) (f : Nat) (pid : Int) (acts : List BPAction) :
    Option Nat × BPState × List BPAction :=
  let pg := s.frames.getD f resetPage
  let pg' := { pg with pageId := pid, pinCount := pg.pinCount + 1 }
  (some f,
   { s with frames := s.frames.set f pg',
            pageTable := aupsert s.pageTable pid f },
   acts ++ [BPAction.diskRead pid])

/-- `BufferPoolManager::FetchPage` (lines 38-135).  The victim path flushes
a dirty victim to disk FIRST (lines 85-94) and only afterwards, under
`ENABLE_LOGGING`, blocks on the log-flush promise when the victim's page LSN
exceeds the persistent LSN (lines 97-113). -/
def fetchPage (s : BPState) (pid : Int) : Option Nat × BPState × List BPAction :=
  if pid = -1 then (none, s, [])
  else
    match alookup s.pageTable pid with
    | some f =>
      let pg := s.frames.getD f resetPage
      let pg' := { pg with pinCount := pg.pinCount + 1 }
      let repl' := if pg'.pinCount = 1 then s.replacer.filter (· ≠ f)
                   else s.replacer
      (some f, { s with frames := s.frames.set f pg', replacer := repl' }, [])
    | none =>
      match s.freeList, s.replacer with
      | f :: rest, _ => fetchCommon { s with freeList := rest } f pid []
      | [], f :: rest =>
        let pg := s.frames.getD f resetPage
        let s1 := if pg.dirty then
            { s with frames := s.frames.set f { pg with dirty := false },
                     dirtyPages := s.dirtyPages.filter (· ≠ pg.pageId) }
          else s
        let acts1 := if pg.dirty then [BPAction.diskWrite pg.pageId] else []
        let acts2 := if s1.enableLogging ∧ pg.lsn > s1.persistentLsn then
            [BPAction.waitLogFlush pg.pageId]
          else []
        let s2 := { s1 with replacer := rest,
                            pageTable := aerase s1.pageTable pg.pageId }
        fetchCommon s2 f pid (acts1 ++ acts2)
      | [], [] => (none, s, [])

/-- Common tail of `BufferPoolManager::NewPage` (lines 318-330): allocate a
page id from the disk manager, reset the frame, set the id, read the page
from disk, pin it, and insert it into the page table. -/
def newCommon (s : BPState) (f : Nat) (acts : List BPAction) :
    Option Nat × BPState × List BPAction :=
  let pid := s.nextAllocPid
  let pg := { resetPage with pageId := pid, pinCount := 1 }
  (some f,
   { s with nextAllocPid := s.nextAllocPid + 1,
            frames := s.frames.set f pg,
            pageTable := aupsert s.pageTable pid f },
   acts ++ [BPAction.allocatePage pid, BPAction.diskRead pid])

/-- `BufferPoolManager::NewPage` (lines 278-331).  Its victim path flushes a
dirty victim (lines 295-304) and performs NO log-durability wait at all. -/
def newPage (s : BPState) : Option Nat × BPState × List BPAction :=
  match s.freeList, s.replacer with
  | f :: rest, _ => newCommon { s with freeList := rest } f []
  | [], f :: rest =>
    let pg := s.frames.getD f resetPage
    let s1 := if pg.dirty then
        { s with frames := s.frames.set f { pg with dirty := false },
                 dirtyPages := s.dirtyPages.filter (· ≠ pg.pageId) }
      else s
    let acts1 := if pg.dirty then [BPAction.diskWrite pg.pageId] else []
    let s2 := { s1 with replacer := rest,
                        pageTable := aerase s1.pageTable pg.pageId }
    newCommon s2 f acts1
  | [], [] => (none, s, [])

/-- `BufferPoolManager::DeletePage` (lines 224-267): only a resident page
with pin count 0 is removed (from the page table, replacer and dirty map),
deallocated on disk, reset, and returned to the free list; a missing or
pinned page leaves everything untouched and returns false. -/
def deletePage (s : BPState) (pid : Int) : Bool × BPState × List BPAction :=
  match alookup s.pageTable pid with
  | some f =>
    let pg := s.frames.getD f resetPage
    if pg.pinCount ≠ 0 then (false, s, [])
    else
      (true,
       { s with pageTable := aerase s.pageTable pid,
                replacer := s.replacer.filter (· ≠ f),
                dirtyPages := s.dirtyPages.filter (· ≠ pg.pageId),
                frames := s.frames.set f resetPage,
                freeList := f :: s.freeList },
       [BPAction.deallocatePage pid])
  | none => (false, s, [])

/-! ### Log manager (src/logging/log_manager.cpp) and the commit wait
(src/concurrency/transaction_manager.cpp)

Each mutex-protected critical section of log_manager.cpp is one atomic step
function; a concurrent execution of the engine is an interleaving of these
steps.  Records carry their header fields; `disk` is the sequence of records
the flush worker has passed to `DiskManager::WriteLog`. -/

inductive LogRecType where
  | begin
  | commit
  | abort
  | insert
  | update
  | markDelete
  | applyDelete
  | rollbackDelete
  | newPage
  deriving DecidableEq, Repr

structure LogRecord where
  size : Nat
  lsn : Int
  txnId : Nat
  prevLsn : Int
  recType : LogRecType
  deriving DecidableEq, Repr

structure LMState where
  logBuffer : List LogRecord
  flushBuffer : List LogRecord
  disk : List LogRecord
  bytesWritten : Nat
  flushSz : Nat
  nextLsn : Int
  persistentLsn : Int
  flushFlag : Bool
  deriving DecidableEq, Repr

/-- A log manager as constructed: `next_lsn_ = 0`,
`persistent_lsn_ = INVALID_LSN`, empty buffers, `flush_ = false`. -/
def lmInit : LMState := ⟨[], [], [], 0, 0, 0, -1, false⟩

/-- `LogManager::AppendLogRecord` (lines 179-329) in the case where the log
buffer has room (the buffer-full wait paths are not exercised here):
assign `lsn = next_lsn_`, serialize into the log buffer, and advance
`next_lsn_` and `bytesWritten_` by the record size.  Returns the assigned
LSN. -/
def appendLogRecord (s : LMState) (txnId : Nat) (prevLsn : Int)
    (ty : LogRecType) (size : Nat) : LMState × Int :=
  let r : LogRecord := ⟨size, s.nextLsn, txnId, prevLsn, ty⟩
  ({ s with logBuffer := s.logBuffer ++ [r],
            nextLsn := s.nextLsn + (size : Int),
            bytesWritten := s.bytesWritten + size }, s.nextLsn)

/-- `LogManager::wake_flush_thread` (lines 94-121) once its spin on
`flush_ == true` has passed: swap the buffers, record the drained size,
reset `bytesWritten_`, set `flush_`, and signal the worker. -/
def wakeFlushThread (s : LMState) : LMState :=
  { s with flushFlag := true,
           flushBuffer := s.logBuffer,
           logBuffer := [],
           flushSz := s.bytesWritten,
           bytesWritten := 0 }

/-- The flush worker's predicate-satisfied branch (`FlushThread`,
lines 22-35 and 55-65): write the flush buffer's `sz_` bytes to the log
file, clear `flush_`, set `persistent_lsn_ = next_lsn_`, and fulfill every
waiting promise with that value — note `next_lsn_` counts records still
sitting unflushed in the live log buffer. -/
def flushWorkerPred (s : LMState) : LMState :=
  { s with disk := s.disk ++ s.flushBuffer,
           flushBuffer := [],
           flushFlag := false,
           persistentLsn := s.nextLsn }

/-- The flush worker's timeout branch (`FlushThread`, lines 36-53 and
55-65) when `bytesWritten_ > 0`: swap, write, reset `bytesWritten_`, set
`persistent_lsn_ = next_lsn_`, fulfill waiters. -/
def flushWorkerTimeout (s : LMState) : LMState :=
  { s with disk := s.disk ++ s.logBuffer,
           logBuffer := [],
           flushBuffer := [],
           bytesWritten := 0,
           persistentLsn := s.nextLsn }

/-- The exit condition of `TransactionManager::Commit`'s group-commit wait
(transaction_manager.cpp lines 51-61): the fulfilled promise value
`last_lsn` (the persistent LSN reported by the flush worker) is compared
against the transaction's PREV LSN — the LSN of the record before the
COMMIT record, not of the COMMIT record itself. -/
def commitWaitDone (lastLsn prevLsn : Int) : Bool :=
  lastLsn ≥ prevLsn

/-- Whether a record with the given LSN has reached the log file. -/
def lsnOnDisk (s : LMState) (lsn : Int) : Bool :=
  s.disk.any (fun r => r.lsn = lsn)

/-! ### Concrete states used by the claim theorems -/

/-- Lock manager state for the wait-die scenario: transaction 0
(timestamp 100) holds an exclusive lock on rid 5; transaction 1
(timestamp 200) is younger. -/
def lmgrC4 : LMgr :=
  ⟨[(5, [(LockType.exclusive, 0)])], [(0, 100), (1, 200)],
   [(0, TxnState.growing), (1, TxnState.growing)], [], [], false⟩

/-- Strict-2PL lock manager state: transaction 1 is GROWING and holds a
shared lock on rid 9. -/
def lmgrC5 : LMgr :=
  ⟨[(9, [(LockType.shared, 1)])], [(1, 50)],
   [(1, TxnState.growing)], [(1, [9])], [(1, [])], true⟩

/-- A leaf (real GenericKey<8> capacity (4096-24)/16 = 254) already holding
key 7 with value 100. -/
def leafC3 : LeafPage := ⟨[(7, 100)], 254, -1⟩

/-- A leaf with max_size 5 holding four keys: one more insert brings it
exactly to max_size. -/
def leafC6 : LeafPage := ⟨[(1, 10), (2, 20), (3, 30), (4, 40)], 5, -1⟩

/-- An internal node with four (key, child) pairs. -/
def internalC7 : List (Int × Int) := [(0, 10), (1, 11), (2, 12), (3, 13)]

/-- A single leaf (page id 1, no next leaf) holding keys 1..5, and the
iterator `Begin()` returns: first slot of the leftmost leaf. -/
def pagesC8 : List (Int × IterLeafPage) :=
  [(1, ⟨[(1, 1), (2, 2), (3, 3), (4, 4), (5, 5)], -1⟩)]

def iterC8 : IterState := ⟨some 1, 0⟩

/-- A buffer pool with one frame holding dirty page 5 whose page LSN 10
exceeds the persistent LSN 3; the page is unpinned and is the replacer
victim; logging is enabled; the next disk allocation returns page id 8. -/
def bpC1 : BPState :=
  ⟨[⟨5, 0, true, 10⟩], [(5, 0)], [], [0], [5], 3, true, 8⟩

/-- A buffer pool holding only page 2; page 3 is not resident. -/
def bpC9 : BPState :=
  ⟨[⟨2, 0, false, 0⟩], [(2, 0)], [], [0], [], -1, false, 4⟩

/-- The four-step interleaving of log-manager critical sections behind the
commit-durability claim: transaction 1 appends BEGIN; an eviction calls
`wake_flush_thread` (swapping the buffers); Commit appends COMMIT (into the
fresh log buffer); the flush worker's predicate branch runs. -/
def lmC2a : LMState × Int := appendLogRecord lmInit 1 (-1) LogRecType.begin 20

def lmC2b : LMState := wakeFlushThread lmC2a.1

def lmC2c : LMState × Int := appendLogRecord lmC2b 1 lmC2a.2 LogRecType.commit 20

def lmC2d : LMState := flushWorkerPred lmC2c.1

deriving instance DecidableEq for Except

/-! ### Theorems -/

/-- Claim C1: the spec says a reused dirty victim is written to disk only
AFTER the manager has blocked for log durability.  In the code the disk
write comes first: at a concrete state with a dirty victim (page 5,
page LSN 10 > persistent LSN 3, logging enabled), `FetchPage`'s action
trace is disk-write, THEN the WAL wait, then the read of the new page; and
`NewPage` reuses the same dirty victim with no WAL wait at all.  This
evaluates the code at the failing input, exhibiting the WAL violation. -/
theorem C1_eviction_writes_dirty_victim_before_wal_wait :
    (fetchPage bpC1 7).2.2 =
      [BPAction.diskWrite 5, BPAction.waitLogFlush 5, BPAction.diskRead 7] ∧
    (newPage bpC1).2.2 =
      [BPAction.diskWrite 5, BPAction.allocatePage 8, BPAction.diskRead 8] := by
  decide

/-- Claim C2: the spec says Commit returns only once its COMMIT record is
durable.  In the exhibited interleaving (BEGIN appended; an eviction swaps
the buffers via `wake_flush_thread`; COMMIT appended into the fresh log
buffer; the flush worker's predicate branch runs) the worker writes only
the BEGIN record (LSN 0) yet sets `persistent_lsn_ = next_lsn_` = 40 and
fulfills the group-commit promise; Commit's wait condition
`last_lsn >= prev_lsn` (40 ≥ 0) lets Commit return while the COMMIT record
(LSN 20) is still in the in-memory log buffer, not on disk. -/
theorem C2_commit_wait_ends_with_commit_record_not_on_disk :
    commitWaitDone lmC2d.persistentLsn lmC2a.2 = true ∧
    lmC2d.disk.map LogRecord.lsn = [0] ∧
    lmC2c.2 = 20 ∧
    lsnOnDisk lmC2d lmC2c.2 = false ∧
    lmC2c.1.logBuffer.map LogRecord.lsn = [20] := by
  decide

/-- Claim C3: the spec says a duplicate-key Insert returns false with no
exception crossing the interface.  Evaluating the code at the failing input
(a tree whose leaf already holds key 7, inserting key 7 again):
`InsertIntoLeaf` calls the leaf's `Insert` without any duplicate check, the
leaf throws `std::invalid_argument("received a duplicate key")`, and no
false-returning path exists — the exception escapes. -/
theorem C3_duplicate_insert_throws_instead_of_false :
    insertIntoLeaf leafC3 7 101 = Except.error LeafError.duplicateKey ∧
    (∀ b, insertIntoLeaf leafC3 7 101 ≠ Except.ok b) := by
  refine ⟨by decide, ?_⟩
  intro b h
  rw [show insertIntoLeaf leafC3 7 101 = Except.error LeafError.duplicateKey
    from by decide] at h
  exact Except.noConfusion h

/-- Claim C6 counterexample: with max_size 5, inserting the fifth key into
a four-key leaf brings it exactly to max_size and the leaf's `Insert`
returns 0 free bytes, so `InsertIntoLeaf` DOES split; `MoveHalfTo` then
leaves ⌊5/2⌋ = 2 entries in the original leaf, below ⌈5/2⌉ = 3 — both
halves of the claim fail. -/
theorem C6_insert_to_max_size_splits :
    insertIntoLeaf leafC6 5 50 =
      Except.ok (true,
        [⟨[(1, 10), (2, 20)], 5, -1⟩,
         ⟨[(3, 30), (4, 40), (5, 50)], 5, -1⟩]) ∧
    (⟨[(1, 10), (2, 20)], 5, -1⟩ : LeafPage).entries.length <
      (leafC6.maxSize + 1) / 2 := by
  decide

/-- Claim C7: the spec (and the method's own comment) say `Remove(index)`
deletes the pair at `index` and keeps the rest contiguous in order.  The
`memmove` has destination and source swapped, so on the failing input
(four pairs, index 1) the code duplicates the pair at index 1 and drops the
last pair instead of erasing index 1. -/
theorem C7_internal_remove_duplicates_instead_of_deleting :
    internalRemove internalC7 1 = [(0, 10), (1, 11), (1, 11)] ∧
    internalRemove internalC7 1 ≠ internalC7.eraseIdx 1 ∧
    internalC7.eraseIdx 1 = [(0, 10), (2, 12), (3, 13)] := by
  decide

/-- Claim C8: the spec says the scan from Begin() yields every key of the
tree, the largest included, before `isEnd()` reports the end.  `isEnd()` is
already true while the iterator is AT the last slot, so the test-suite's
own loop (`for (it = Begin(); !it.isEnd(); ++it)`) over the failing input —
one leaf holding keys 1..5 — yields only 1..4, while
the test expects all five. -/
theorem C8_iterator_skips_largest_key :
    iterRun pagesC8 10 iterC8 = [(1, 1), (2, 2), (3, 3), (4, 4)] ∧
    (iterRun pagesC8 10 iterC8).map Prod.fst ≠ [1, 2, 3, 4, 5] ∧
    iterIsEnd pagesC8 ⟨some 1, 4⟩ = true := by
  decide

/-- Looking a key up right after upserting it yields the new value. -/
theorem alookup_aupsert_self {α β : Type} [DecidableEq α]
    (l : List (α × β)) (k : α) (v : β) :
    alookup (aupsert l k v) k = some v := by
  induction l with
  | nil => simp [aupsert, alookup]
  | cons hd tl ih =>
    obtain ⟨a, b⟩ := hd
    by_cases hk : a = k
    · simp [aupsert, alookup, hk]
    · simp [aupsert, alookup, hk, ih]

/-- A key absent from the key column of an association list looks up to
none. -/
theorem alookup_eq_none_of_not_mem {α β : Type} [DecidableEq α]
    (l : List (α × β)) (k : α) (h : k ∉ l.map Prod.fst) :
    alookup l k = none := by
  induction l with
  | nil => simp [alookup]
  | cons hd tl ih =>
    obtain ⟨a, b⟩ := hd
    simp only [List.map_cons, List.mem_cons] at h
    push_neg at h
    have hak : ¬ a = k := fun hk => h.1 hk.symm
    simp [alookup, hak, ih h.2]

/-- Under unique keys, erasing a key really removes it. -/
theorem alookup_aerase_self {α β : Type} [DecidableEq α]
    (l : List (α × β)) (k : α) (h : (l.map Prod.fst).Nodup) :
    alookup (aerase l k) k = none := by
  induction l with
  | nil => simp [aerase, alookup]
  | cons hd tl ih =>
    obtain ⟨a, b⟩ := hd
    simp only [List.map_cons, List.nodup_cons] at h
    by_cases hk : a = k
    · subst hk
      simpa [aerase] using alookup_eq_none_of_not_mem tl a h.1
    · simp [aerase, alookup, hk, ih h.2]

/-- If a transaction has at most one entry in a queue, removing its first
entry leaves it with none. -/
theorem removeFirstEntry_none_left (l : List (LockType × Nat)) (tid : Nat)
    (h : l.countP (fun e => e.2 = tid) ≤ 1) :
    ∀ e ∈ removeFirstEntry l tid, e.2 ≠ tid := by
  induction l with
  | nil => simp [removeFirstEntry]
  | cons hd tl ih =>
    have hcons : (hd :: tl).countP (fun e => e.2 = tid) =
        tl.countP (fun e => e.2 = tid) + if hd.2 = tid then 1 else 0 := by
      rw [List.countP_cons]
      by_cases hh : hd.2 = tid <;> simp [hh]
    rw [hcons] at h
    by_cases hh : hd.2 = tid
    · rw [if_pos hh] at h
      intro e he
      rw [removeFirstEntry, if_pos hh] at he
      have h' : tl.countP (fun e => e.2 = tid) = 0 := by omega
      simpa using List.countP_eq_zero.mp h' e he
    · rw [if_neg hh] at h
      intro e he
      rw [removeFirstEntry, if_neg hh] at he
      rcases List.mem_cons.mp he with rfl | he'
      · exact hh
      · exact ih (by omega) e he'

/-- The strict-2PL flag is unchanged by `Unlock`'s state mutation. -/
theorem unlockCore_strict2PL (s : LMgr) (tid rid : Nat) :
    (unlockCore s tid rid).strict2PL = s.strict2PL := by
  simp only [unlockCore, setTxnState]
  split <;> split <;> rfl

/-- `Unlock`'s state mutation leaves the transaction-state table as after
the (possible) GROWING → SHRINKING transition. -/
theorem unlockCore_txnStates (s : LMgr) (tid rid : Nat) :
    (unlockCore s tid rid).txnStates =
      (if txnStateOf s tid = TxnState.growing
       then setTxnState s tid TxnState.shrinking else s).txnStates := by
  simp only [unlockCore]
  split <;> split <;> rfl

/-- `Unlock`'s state mutation maps the lock table through
`unlockQueueUpdate` only. -/
theorem unlockCore_lm (s : LMgr) (tid rid : Nat) :
    (unlockCore s tid rid).lm = unlockQueueUpdate s.lm tid rid := by
  simp only [unlockCore]
  split <;> split <;> rfl

/-- Reduction of `LockShared` at a queue holding exactly one exclusive
lock: the wait-die comparison decides between dying and waiting. -/
theorem lockShared_sole_exclusive (s : LMgr) (tid rid now hid : Nat)
    (hgrow : txnStateOf s tid = TxnState.growing)
    (h : alookup s.lm rid = some [(LockType.exclusive, hid)]) :
    lockShared s tid rid now =
      if holderTs s hid < reqTs s tid now then LockOutcome.died (abortTxn s tid)
      else LockOutcome.blocked := by
  unfold lockShared
  rw [if_neg (by simp [hgrow]), h]

/-- Reduction of `LockExclusive` at a nonempty queue: the `find_if` over the
holders decides between dying and waiting. -/
theorem lockExclusive_present (s : LMgr) (tid rid now : Nat)
    (vec : List (LockType × Nat))
    (hgrow : txnStateOf s tid = TxnState.growing)
    (h : alookup s.lm rid = some vec) (hne : vec ≠ []) :
    lockExclusive s tid rid now =
      if vec.any (fun e => reqTs s tid now > holderTs s e.2) then
        LockOutcome.died (abortTxn s tid)
      else LockOutcome.blocked := by
  simp only [lockExclusive, h]
  rw [if_neg (by simp [hgrow]), if_neg (by simp [List.length_eq_zero, hne])]

/-- Reduction of `LockUpgrade` when the queue is not just the requester's
own shared entry: the `find_if` over the holders decides between dying and
waiting. -/
theorem lockUpgrade_waiting (s : LMgr) (tid rid ts : Nat)
    (vec : List (LockType × Nat))
    (hgrow : txnStateOf s tid = TxnState.growing)
    (h : alookup s.lm rid = some vec)
    (hshared : vec.any (fun e => e.1 = LockType.shared ∧ e.2 = tid) = true)
    (himm : ¬ upgradeImmediate vec tid)
    (hts : alookup s.lt tid = some ts) :
    lockUpgrade s tid rid =
      if vec.any (fun e => ts > holderTs s e.2) then
        LockOutcome.died (abortTxn s tid)
      else LockOutcome.blocked := by
  simp only [lockUpgrade, h]
  rw [if_neg (by simp [hgrow]), if_neg (not_not_intro hshared), if_neg himm, hts]

/-- After the die path, the requester observes itself ABORTED. -/
theorem abortTxn_state (s : LMgr) (tid : Nat) :
    txnStateOf (abortTxn s tid) tid = TxnState.aborted := by
  simp [abortTxn, setTxnState, txnStateOf, alookup_aupsert_self]

/-- Claim C4: wait-die.  For a request that would have to wait —
`LockShared` against a sole exclusive holder, `LockExclusive` against a
nonempty queue, `LockUpgrade` while other entries remain — if some current
holder's recorded timestamp is smaller than the requester's (the requester
is younger), the call dies: the outcome is `died` (return false) with the
requester's state set to ABORTED, without blocking; if the requester is no
younger than every holder it blocks on the condition variable; and once the
rid's queue has emptied, a re-evaluation grants the lock (returns true). -/
theorem C4_wait_die_dichotomy (s : LMgr) (tid rid now : Nat)
    (hgrow : txnStateOf s tid = TxnState.growing) :
    (∀ hid, alookup s.lm rid = some [(LockType.exclusive, hid)] →
      (holderTs s hid < reqTs s tid now →
        lockShared s tid rid now = LockOutcome.died (abortTxn s tid) ∧
        txnStateOf (abortTxn s tid) tid = TxnState.aborted) ∧
      (reqTs s tid now ≤ holderTs s hid →
        lockShared s tid rid now = LockOutcome.blocked)) ∧
    (∀ vec, alookup s.lm rid = some vec → vec ≠ [] →
      ((∃ e ∈ vec, holderTs s e.2 < reqTs s tid now) →
        lockExclusive s tid rid now = LockOutcome.died (abortTxn s tid) ∧
        txnStateOf (abortTxn s tid) tid = TxnState.aborted) ∧
      ((∀ e ∈ vec, reqTs s tid now ≤ holderTs s e.2) →
        lockExclusive s tid rid now = LockOutcome.blocked)) ∧
    (∀ vec ts, alookup s.lm rid = some vec →
      vec.any (fun e => e.1 = LockType.shared ∧ e.2 = tid) = true →
      ¬ upgradeImmediate vec tid →
      alookup s.lt tid = some ts →
      ((∃ e ∈ vec, holderTs s e.2 < ts) →
        lockUpgrade s tid rid = LockOutcome.died (abortTxn s tid) ∧
        txnStateOf (abortTxn s tid) tid = TxnState.aborted) ∧
      ((∀ e ∈ vec, ts ≤ holderTs s e.2) →
        lockUpgrade s tid rid = LockOutcome.blocked)) ∧
    (alookup s.lm rid = none →
      lockShared s tid rid now = LockOutcome.granted (grantShared s tid rid now) ∧
      lockExclusive s tid rid now =
        LockOutcome.granted (grantExclusive s tid rid now)) := by
  refine ⟨?_, ?_, ?_, ?_⟩
  · intro hid h
    constructor
    · intro hlt
      rw [lockShared_sole_exclusive s tid rid now hid hgrow h, if_pos hlt]
      exact ⟨rfl, abortTxn_state s tid⟩
    · intro hle
      rw [lockShared_sole_exclusive s tid rid now hid hgrow h,
        if_neg (by omega)]
  · intro vec h hne
    constructor
    · intro hex
      have hany : (vec.any (fun e => reqTs s tid now > holderTs s e.2)) = true := by
        rw [List.any_eq_true]
        obtain ⟨e, hmem, hlt⟩ := hex
        exact ⟨e, hmem, by simpa using hlt⟩
      rw [lockExclusive_present s tid rid now vec hgrow h hne, if_pos hany]
      exact ⟨rfl, abortTxn_state s tid⟩
    · intro hall
      have hany : ¬ ((vec.any (fun e => reqTs s tid now > holderTs s e.2)) = true) := by
        rw [List.any_eq_true]
        rintro ⟨e, hmem, hp⟩
        have hle := hall e hmem
        simp only [decide_eq_true_eq] at hp
        omega
      rw [lockExclusive_present s tid rid now vec hgrow h hne, if_neg hany]
  · intro vec ts h hshared himm hts
    constructor
    · intro hex
      have hany : (vec.any (fun e => ts > holderTs s e.2)) = true := by
        rw [List.any_eq_true]
        obtain ⟨e, hmem, hlt⟩ := hex
        exact ⟨e, hmem, by simpa using hlt⟩
      rw [lockUpgrade_waiting s tid rid ts vec hgrow h hshared himm hts,
        if_pos hany]
      exact ⟨rfl, abortTxn_state s tid⟩
    · intro hall
      have hany : ¬ ((vec.any (fun e => ts > holderTs s e.2)) = true) := by
        rw [List.any_eq_true]
        rintro ⟨e, hmem, hp⟩
        have hle := hall e hmem
        simp only [decide_eq_true_eq] at hp
        omega
      rw [lockUpgrade_waiting s tid rid ts vec hgrow h hshared himm hts,
        if_neg hany]
  · intro h
    constructor
    · unfold lockShared
      rw [if_neg (by simp [hgrow]), h]
    · unfold lockExclusive
      rw [if_neg (by simp [hgrow]), h]

/-- Witness for C4 at the spec's literal scenario: transaction 0
(timestamp 100) holds an exclusive lock on rid 5; the younger transaction 1
(timestamp 200) calls LockShared and dies, observing itself ABORTED. -/
theorem C4_wait_die_dichotomy_witness :
    lockShared lmgrC4 1 5 300 = LockOutcome.died (abortTxn lmgrC4 1) ∧
    txnStateOf (abortTxn lmgrC4 1) 1 = TxnState.aborted := by
  have h := C4_wait_die_dichotomy lmgrC4 1 5 300 (by decide)
  exact (h.1 0 (by decide)).1 (by decide)

/-- Claim C5 counterexample: in strict-2PL mode, `Unlock` by a GROWING
transaction holding a shared lock on rid 9 does return false with the
transaction ABORTED — but, contrary to the claim, the unlock TAKES effect:
the rid's queue entry is removed (the rid key disappears from the lock
table) and all waiters on the rid are notified before the strict-2PL check
runs. -/
theorem C5_strict_unlock_takes_effect_counterexample :
    (unlock lmgrC5 1 9).1 = false ∧
    txnStateOf (unlock lmgrC5 1 9).2.1 1 = TxnState.aborted ∧
    alookup (unlock lmgrC5 1 9).2.1.lm 9 = none ∧
    (unlock lmgrC5 1 9).2.2 = [LockAction.notifyAll 9] := by
  decide

/-- Claim C5 (amended): in strict-2PL mode, `Unlock` on a transaction that
is neither COMMITTED nor ABORTED sets its state to ABORTED and returns
false, but the unlock itself TAKES effect first: the transaction's entry is
removed from the rid's queue (no entry of the transaction remains) and
`notify_all` is issued to the rid's waiters. -/
theorem C5_strict_unlock_aborts_but_takes_effect (s : LMgr) (tid rid : Nat)
    (hstrict : s.strict2PL = true)
    (hnt : txnStateOf s tid = TxnState.growing ∨
           txnStateOf s tid = TxnState.shrinking)
    (hnodup : (s.lm.map Prod.fst).Nodup)
    (honce : ((alookup s.lm rid).getD []).countP (fun e => e.2 = tid) ≤ 1) :
    (unlock s tid rid).1 = false ∧
    txnStateOf (unlock s tid rid).2.1 tid = TxnState.aborted ∧
    (∀ q, alookup (unlock s tid rid).2.1.lm rid = some q →
      ∀ e ∈ q, e.2 ≠ tid) ∧
    (unlock s tid rid).2.2 = [LockAction.notifyAll rid] := by
  have hstate4 : txnStateOf (unlockCore s tid rid) tid = TxnState.shrinking := by
    rw [txnStateOf, unlockCore_txnStates]
    rcases hnt with hg | hs
    · rw [if_pos hg]
      simp [setTxnState, alookup_aupsert_self]
    · rw [if_neg (by simp [hs])]
      exact hs
  have hcond : (unlockCore s tid rid).strict2PL = true ∧
      txnStateOf (unlockCore s tid rid) tid ≠ TxnState.committed ∧
      txnStateOf (unlockCore s tid rid) tid ≠ TxnState.aborted := by
    refine ⟨?_, ?_, ?_⟩
    · rw [unlockCore_strict2PL]; exact hstrict
    · simp [hstate4]
    · simp [hstate4]
  have hunlock : unlock s tid rid =
      (false, abortTxn (unlockCore s tid rid) tid,
        [LockAction.notifyAll rid]) := by
    simp only [unlock]
    rw [if_pos hcond]
  refine ⟨by rw [hunlock], ?_, ?_, by rw [hunlock]⟩
  · rw [hunlock]
    exact abortTxn_state _ tid
  · intro q hq e he
    rw [hunlock] at hq
    have hlm1 : (abortTxn (unlockCore s tid rid) tid).lm =
        (unlockCore s tid rid).lm := rfl
    rw [hlm1, unlockCore_lm] at hq
    simp only [unlockQueueUpdate] at hq
    by_cases hempty :
        (removeFirstEntry ((alookup s.lm rid).getD []) tid).isEmpty = true
    · rw [if_pos hempty, alookup_aerase_self s.lm rid hnodup] at hq
      exact absurd hq (by simp)
    · rw [if_neg hempty, alookup_aupsert_self] at hq
      injection hq with hq2
      subst hq2
      exact removeFirstEntry_none_left _ tid honce e he

/-- Witness for the amended C5 at the concrete strict-mode state. -/
theorem C5_strict_unlock_aborts_but_takes_effect_witness :
    (unlock lmgrC5 1 9).1 = false ∧
    txnStateOf (unlock lmgrC5 1 9).2.1 1 = TxnState.aborted := by
  have h := C5_strict_unlock_aborts_but_takes_effect lmgrC5 1 9 (by decide)
    (Or.inl (by decide)) (by decide) (by decide)
  exact ⟨h.1, h.2.1⟩

/-- Claim C6 (amended): an insert that brings a leaf's size exactly to
max_size already triggers the split — the leaf's `Insert` reports 0 free
bytes precisely when the new size equals max_size, and `InsertIntoLeaf`
splits on 0 — and after the split the lower leaf keeps ⌊size/2⌋ entries and
the upper receives ⌈size/2⌉, so when the split happens at max_size both
halves hold at least ⌊max_size/2⌋ (not ⌈max_size/2⌉) entries. -/
theorem C6_split_exactly_at_max_size (leaf : LeafPage) (k : Int) (v : Nat)
    (leaf' : LeafPage) (ret : Nat)
    (hok : leafInsert leaf k v = Except.ok (leaf', ret)) :
    leaf'.entries.length = leaf.entries.length + 1 ∧
    (ret = 0 ↔ leaf'.entries.length = leaf.maxSize) ∧
    (moveHalfTo leaf'.entries).1.length = leaf'.entries.length / 2 ∧
    (moveHalfTo leaf'.entries).2.length =
      leaf'.entries.length - leaf'.entries.length / 2 ∧
    (ret = 0 →
      leaf.maxSize / 2 ≤ (moveHalfTo leaf'.entries).1.length ∧
      leaf.maxSize / 2 ≤ (moveHalfTo leaf'.entries).2.length) := by
  simp only [leafInsert] at hok
  split at hok
  · rename_i hsz
    split at hok
    · exact absurd hok (by simp)
    · rename_i low hfind
      simp only [Except.ok.injEq, Prod.mk.injEq] at hok
      obtain ⟨hleaf, hret⟩ := hok
      subst hleaf
      subst hret
      have hlen : (leaf.entries.take low.toNat ++ [(k, v)] ++
          leaf.entries.drop low.toNat).length = leaf.entries.length + 1 := by
        simp only [List.length_append, List.length_take, List.length_drop,
          List.length_cons, List.length_nil]
        omega
      refine ⟨hlen, ?_, ?_, ?_, ?_⟩
      · simp only [mappingSize, hlen]
        omega
      · simp only [moveHalfTo, List.length_take]
        omega
      · simp only [moveHalfTo, List.length_drop]
      · intro hz
        simp only [mappingSize, hlen] at hz
        simp only [moveHalfTo, List.length_take, List.length_drop, hlen]
        omega
  · exact absurd hok (by simp)

/-- Witness for the amended C6 at the concrete max_size-5 leaf: the insert
of the fifth key returns 0 and both split halves hold ≥ ⌊5/2⌋ = 2
entries. -/
theorem C6_split_exactly_at_max_size_witness :
    leafC6.maxSize / 2 ≤
      (moveHalfTo (⟨[(1, 10), (2, 20), (3, 30), (4, 40), (5, 50)], 5, -1⟩ :
        LeafPage).entries).1.length := by
  have h := C6_split_exactly_at_max_size leafC6 5 50
    ⟨[(1, 10), (2, 20), (3, 30), (4, 40), (5, 50)], 5, -1⟩ 0 (by decide)
  exact (h.2.2.2.2 rfl).1

/-- Claim C9: `DeletePage` on a page id absent from the page table returns
false and is a complete no-op — the state (page table, replacer, free
list, dirty map, frames) is unchanged and no action, in particular no
`DeallocatePage`, is emitted; and whenever `DeletePage` does emit a
deallocation, the page was resident with pin count 0. -/
theorem C9_delete_absent_page_noop (s : BPState) (pid : Int)
    (h : alookup s.pageTable pid = none) :
    deletePage s pid = (false, s, []) ∧
    (∀ t : BPState, ∀ q : Int,
      BPAction.deallocatePage q ∈ (deletePage t q).2.2 →
      ∃ f, alookup t.pageTable q = some f ∧
        (t.frames.getD f resetPage).pinCount = 0) := by
  constructor
  · simp [deletePage, h]
  · intro t q hmem
    unfold deletePage at hmem
    cases hfind : alookup t.pageTable q with
    | none => rw [hfind] at hmem; simp at hmem
    | some f =>
      rw [hfind] at hmem
      simp only at hmem
      by_cases hpin : (t.frames.getD f resetPage).pinCount ≠ 0
      · rw [if_pos hpin] at hmem
        simp at hmem
      · push_neg at hpin
        exact ⟨f, rfl, hpin⟩

/-- Witness for C9 at a concrete pool where page 3 is not resident. -/
theorem C9_delete_absent_page_noop_witness :
    deletePage bpC9 3 = (false, bpC9, []) :=
  (C9_delete_absent_page_noop bpC9 3 (by decide)).1

/-- Claim C10: `FetchPage(INVALID_PAGE_ID)` returns nullptr immediately —
before taking the manager latch — and performs no state mutation and no
disk, replacer, free-list or page-table access. -/
theorem C10_fetch_invalid_page_id_noop (s : BPState) :
    fetchPage s (-1) = (none, s, []) := by
  unfold fetchPage
  simp

end Cmudb
